import Mathlib

/-!
Verification of the whale-worker trade pipeline (bro-xuan/PM_wallet_tracker).

Shallow embedding of the Python sources under `src/whale_worker/`:

* `types.py`     — `Trade`, `AggregatedTrade.from_fills`, `MarketMetadata`,
                   `UserFilter`, `TradeMarker`, fill / aggregation keys;
* `filters.py`   — `trade_matches_user_filter`,
                   `aggregated_trade_matches_user_filter`;
* `db.py`        — the deduplication store (`mark_trade_as_processed`,
                   `is_trade_processed`, TTL reaping);
* `main.py`      — per-cycle fill grouping and marker update;
* `notification_queue.py` — the send/retry loop and `_deactivate_chat`.

Modelling conventions: Python `float` values (sizes, prices, notionals)
are embedded as rationals `ℚ`, so sums, products and divisions are exact;
Unix timestamps are `ℕ`; Python `str` is `String` (lists of characters for
key-construction proofs); Python `None` for optional strings is
`Option String`, with Python truthiness (`None` and `""` are falsy) made
explicit where the source relies on it; functions that raise for some
inputs return `Option`.
-/

namespace WhaleWorker

/-- From `types.py` — `Trade`: a single fill from Polymarket. -/
structure Trade where
  transaction_hash : String
  proxy_wallet : String
  side : String
  size : ℚ
  price : ℚ
  condition_id : Option String := none
  outcome : Option String := none
  timestamp : ℕ := 0
deriving DecidableEq, Repr, Inhabited

/-- From `types.py` — `Trade.notional`: `size * price`. -/
def Trade.notional (t : Trade) : ℚ := t.size * t.price

/-- Python truthiness for an optional string: `None` and `""` are falsy. -/
def pyTruthy : Option String → Bool
  | none => false
  | some s => !(s == "")

/-- `str(x) if x else "None"` as used by `Trade.get_fill_key` in `types.py`:
a falsy optional (Python `None` or the empty string) renders as `"None"`. -/
def pyStrOrNone : Option String → String
  | none => "None"
  | some s => if s == "" then "None" else s

/-- `str(x) if x else None` as used by `Trade.get_aggregation_key` in
`types.py`: a falsy optional collapses to `None`. -/
def pyOptNorm : Option String → Option String
  | none => none
  | some s => if s == "" then none else some s

/-- Decimal digit to its character, as in Python number rendering. -/
def digitChar : ℕ → Char
  | 0 => '0'
  | 1 => '1'
  | 2 => '2'
  | 3 => '3'
  | 4 => '4'
  | 5 => '5'
  | 6 => '6'
  | 7 => '7'
  | 8 => '8'
  | 9 => '9'
  | _ => '*'

/-- Decimal rendering of a natural number (character list, most
significant digit first). -/
def natChars (n : ℕ) : List Char := ((Nat.digits 10 n).map digitChar).reverse

/-- Decimal rendering of an integer: minus sign then digits. -/
def intChars (i : ℤ) : List Char :=
  if i < 0 then '-' :: natChars i.natAbs else natChars i.natAbs

/-- Rendering of an embedded numeric value for the fill key.  Python's
`str(float)` is an injective, colon-free decimal rendering of the value
(`repr` round-trips); we model it by the injective, colon-free rendering
`num/den` of the embedded rational. -/
def ratChars (q : ℚ) : List Char := intChars q.num ++ '/' :: natChars q.den

/-- From `types.py` — `Trade.get_fill_key`: the deduplication key
`f"{transaction_hash}:{proxy_wallet}:{condition_str}:{outcome_str}:{side}:{size}:{price}"`
where `condition_str` / `outcome_str` are `str(x) if x else "None"`.
Embedded as the character sequence of the produced string. -/
def Trade.get_fill_key (t : Trade) : List Char :=
  t.transaction_hash.data ++ ':' ::
    (t.proxy_wallet.data ++ ':' ::
      ((pyStrOrNone t.condition_id).data ++ ':' ::
        ((pyStrOrNone t.outcome).data ++ ':' ::
          (t.side.data ++ ':' ::
            (ratChars t.size ++ ':' :: ratChars t.price)))))

/-- From `types.py` — `Trade.get_aggregation_key`: the grouping tuple
`(transaction_hash, proxy_wallet, str(condition_id) if condition_id else None,
str(outcome) if outcome else None, side)`. -/
def Trade.get_aggregation_key (t : Trade) :
    String × String × Option String × Option String × String :=
  (t.transaction_hash, t.proxy_wallet, pyOptNorm t.condition_id,
    pyOptNorm t.outcome, t.side)

/-- From `types.py` — `AggregatedTrade`: fills combined into one whale trade. -/
structure AggregatedTrade where
  transaction_hash : String
  proxy_wallet : String
  side : String
  condition_id : Option String := none
  outcome : Option String := none
  total_size : ℚ := 0
  total_notional_usd : ℚ := 0
  vwap_price : ℚ := 0
  timestamp : ℕ := 0
  fill_count : ℕ := 0
deriving DecidableEq, Repr, Inhabited

/-- From `types.py` — `AggregatedTrade.from_fills`.  The Python raises
`ValueError` on an empty fill list (modelled as `none`); otherwise common
fields come from the first fill, `total_size` and `total_notional` are
exact sums, `vwap_price` is `total_notional / total_size if total_size > 0
else 0.0`, `timestamp` is `max(fill.timestamp for fill in fills)` (over
`ℕ` the fold with base `0` is that maximum), and `fill_count` is
`len(fills)`. -/
def AggregatedTrade.from_fills : List Trade → Option AggregatedTrade
  | [] => none
  | first_fill :: rest =>
    let fills := first_fill :: rest
    let total_size : ℚ := (fills.map Trade.size).sum
    let total_notional : ℚ := (fills.map Trade.notional).sum
    let vwap_price : ℚ := if 0 < total_size then total_notional / total_size else 0
    let max_timestamp : ℕ := (fills.map Trade.timestamp).foldr max 0
    some {
      transaction_hash := first_fill.transaction_hash
      proxy_wallet := first_fill.proxy_wallet
      condition_id := first_fill.condition_id
      outcome := first_fill.outcome
      side := first_fill.side
      total_size := total_size
      total_notional_usd := total_notional
      vwap_price := vwap_price
      timestamp := max_timestamp
      fill_count := fills.length }

/-- From `types.py` — `MarketMetadata`. -/
structure MarketMetadata where
  condition_id : String
  title : String
  slug : Option String := none
  description : Option String := none
  image_url : Option String := none
  category : Option String := none
  subcategory : Option String := none
  tags : List String := []
  tag_ids : List String := []
  is_sports : Bool := false
  categories : List String := []
deriving DecidableEq, Repr, Inhabited

/-- From `types.py` — `UserFilter`. -/
structure UserFilter where
  user_id : String
  min_notional_usd : ℚ
  min_price : ℚ
  max_price : ℚ
  sides : List String
  markets_filter : List String := []
  category_filter : List String := []
  exclude_categories : List String := []
  selected_categories : List String := []
  enabled : Bool := true
  telegram_chat_id : Option String := none
deriving DecidableEq, Repr, Inhabited

/-- `x.lower()` on a Python string (ASCII-faithful). -/
def pyLower (s : String) : String := s.toLower

/-- `market.category and market.category.lower() == excluded_cat.lower()`
from checks 5 of `filters.py` (legacy category field, truthiness guard). -/
def categoryEquals (category : Option String) (c : String) : Bool :=
  pyTruthy category &&
    match category with
    | some mc => pyLower mc == pyLower c
    | none => false

/-- `market.category and market.category.lower() in [c.lower() for c in l]`
(the check-6 fallback of `filters.py`, negated there to reject). -/
def categoryInList (category : Option String) (l : List String) : Bool :=
  pyTruthy category &&
    match category with
    | some mc => (l.map pyLower).contains (pyLower mc)
    | none => false

/-- Python `x in l` for an optional string against a string list
(`None in l` is false for a list of strings). -/
def optMem (x : Option String) (l : List String) : Bool :=
  match x with
  | some s => l.contains s
  | none => false

/-- From `filters.py` — `trade_matches_user_filter` (lines 8-82): the
single-fill matcher.  Each `if ...: return False` of the source is one
branch, in source order: enabled; notional threshold; price range; side;
exclude-sports; exclude-categories loop; include tag-id overlap with
legacy-category fallback; explicit market allow-list. -/
def trade_matches_user_filter (trade : Trade) (market : MarketMetadata)
    (user_filter : UserFilter) : Bool :=
  if !user_filter.enabled then false
  else if decide (trade.notional < user_filter.min_notional_usd) then false
  else if !(decide (user_filter.min_price ≤ trade.price) &&
      decide (trade.price ≤ user_filter.max_price)) then false
  else if !(user_filter.sides.contains trade.side) then false
  else if (user_filter.exclude_categories.map pyLower).contains "sports" &&
      market.is_sports then false
  else if user_filter.exclude_categories.any (fun c =>
      (pyLower c == "sports" && market.is_sports) ||
        categoryEquals market.category c) then false
  else if !user_filter.category_filter.isEmpty &&
      !(market.tag_ids.any (fun tid => user_filter.category_filter.contains tid)) &&
      !(categoryInList market.category user_filter.category_filter) then false
  else if !user_filter.markets_filter.isEmpty &&
      !(optMem trade.condition_id user_filter.markets_filter) then false
  else true

/-- From `filters.py` — `aggregated_trade_matches_user_filter` (lines
108-182): same gate sequence as the single-fill matcher, with
`total_notional_usd` in place of `notional` and `vwap_price` in place of
`price`. -/
def aggregated_trade_matches_user_filter (agg_trade : AggregatedTrade)
    (market : MarketMetadata) (user_filter : UserFilter) : Bool :=
  if !user_filter.enabled then false
  else if decide (agg_trade.total_notional_usd < user_filter.min_notional_usd) then false
  else if !(decide (user_filter.min_price ≤ agg_trade.vwap_price) &&
      decide (agg_trade.vwap_price ≤ user_filter.max_price)) then false
  else if !(user_filter.sides.contains agg_trade.side) then false
  else if (user_filter.exclude_categories.map pyLower).contains "sports" &&
      market.is_sports then false
  else if user_filter.exclude_categories.any (fun c =>
      (pyLower c == "sports" && market.is_sports) ||
        categoryEquals market.category c) then false
  else if !user_filter.category_filter.isEmpty &&
      !(market.tag_ids.any (fun tid => user_filter.category_filter.contains tid)) &&
      !(categoryInList market.category user_filter.category_filter) then false
  else if !user_filter.markets_filter.isEmpty &&
      !(optMem agg_trade.condition_id user_filter.markets_filter) then false
  else true

/-! Individual gate predicates of the aggregated matcher, used to state
that the matcher is their pure conjunction (spec §4.3).  Each gate is the
pass-condition of the corresponding source check. -/

/-- Gate 1 of `aggregated_trade_matches_user_filter`: the filter is enabled. -/
def enabled_gate (user_filter : UserFilter) : Bool := user_filter.enabled

/-- Gate 2: `total_notional_usd >= min_notional_usd`. -/
def notional_gate (agg_trade : AggregatedTrade) (user_filter : UserFilter) : Bool :=
  !decide (agg_trade.total_notional_usd < user_filter.min_notional_usd)

/-- Gate 3: `min_price <= vwap_price <= max_price`. -/
def price_gate (agg_trade : AggregatedTrade) (user_filter : UserFilter) : Bool :=
  decide (user_filter.min_price ≤ agg_trade.vwap_price) &&
    decide (agg_trade.vwap_price ≤ user_filter.max_price)

/-- Gate 4: `side in sides`. -/
def side_gate (agg_trade : AggregatedTrade) (user_filter : UserFilter) : Bool :=
  user_filter.sides.contains agg_trade.side

/-- Gate 5: the category conditions — source checks 4 (exclude sports),
5 (exclude-categories loop) and 6 (tag-id allow-list with legacy
fallback) jointly pass. -/
def category_gate (market : MarketMetadata) (user_filter : UserFilter) : Bool :=
  !((user_filter.exclude_categories.map pyLower).contains "sports" &&
      market.is_sports) &&
  !(user_filter.exclude_categories.any (fun c =>
      (pyLower c == "sports" && market.is_sports) ||
        categoryEquals market.category c)) &&
  !(!user_filter.category_filter.isEmpty &&
      !(market.tag_ids.any (fun tid => user_filter.category_filter.contains tid)) &&
      !(categoryInList market.category user_filter.category_filter))

/-- Gate 6: the explicit market (instrument) allow-list. -/
def markets_gate (agg_trade : AggregatedTrade) (user_filter : UserFilter) : Bool :=
  !(!user_filter.markets_filter.isEmpty &&
      !(optMem agg_trade.condition_id user_filter.markets_filter))

/-- The six gates of the aggregated matcher as a list of booleans. -/
def gate_list (agg_trade : AggregatedTrade) (market : MarketMetadata)
    (user_filter : UserFilter) : List Bool :=
  [enabled_gate user_filter,
   notional_gate agg_trade user_filter,
   price_gate agg_trade user_filter,
   side_gate agg_trade user_filter,
   category_gate market user_filter,
   markets_gate agg_trade user_filter]

/-! ### Deduplication store (`db.py`)

The `processedTrades` collection has a uniqueness constraint on
`fillKey` (`ensure_processed_trades_ttl_index`), so its logical state is
a map from fill key to the stored `expiresAt` time.  Times are abstract
instants (`ℕ`); `mark_trade_as_processed` stores
`expiresAt = now + ttl`. -/

/-- Logical state of the `processedTrades` collection: fill key to
expiry time, `none` when no record is physically present. -/
def DedupStore : Type := String → Option ℕ

/-- From `db.py` — `mark_trade_as_processed`: upsert of the record for
`fill_key` with `expiresAt = now + ttl` (the `update_one(..., upsert=True)`). -/
def mark_trade_as_processed (s : DedupStore) (fill_key : String)
    (now ttl : ℕ) : DedupStore :=
  fun k => if k = fill_key then some (now + ttl) else s k

/-- From `db.py` — `is_trade_processed`: `find_one({fillKey, expiresAt > now})`
is non-null, i.e. a record exists and its expiry is strictly in the future. -/
def is_trade_processed (s : DedupStore) (fill_key : String) (now : ℕ) : Bool :=
  match s fill_key with
  | some expiry => decide (now < expiry)
  | none => false

/-- The MongoDB TTL index (`expireAfterSeconds=0` on `expiresAt`): at any
instant it may physically delete records whose expiry has been reached.
Reaping everything eligible at time `now`. -/
def reap_expired (s : DedupStore) (now : ℕ) : DedupStore :=
  fun k =>
    match s k with
    | some expiry => if expiry ≤ now then none else some expiry
    | none => none

/-! ### Marker and per-cycle pipeline (`types.py`, `main.py`) -/

/-- From `types.py` — `TradeMarker` (the `updated_at` bookkeeping field
carries no pipeline meaning and is omitted). -/
structure TradeMarker where
  last_processed_timestamp : ℕ
  last_processed_tx_hash : Option String := none
deriving DecidableEq, Repr, Inhabited

/-- From `main.py` (step 2, lines 228-247): grouping of new fills by
aggregation key via `defaultdict(list)` — groups appear in order of the
first occurrence of their key, and each group keeps its fills in input
order. -/
def group_fills : List Trade → List (List Trade)
  | [] => []
  | f :: rest =>
    (f :: rest.filter (fun t => t.get_aggregation_key = f.get_aggregation_key)) ::
      group_fills (rest.filter (fun t => t.get_aggregation_key ≠ f.get_aggregation_key))
termination_by fills => fills.length
decreasing_by
  simp only [List.length_cons]
  exact Nat.lt_succ_of_le (List.length_filter_le _ _)

/-- From `main.py` (step 2): one `AggregatedTrade.from_fills` per fill
group (each group is non-empty by construction, so `filterMap` drops
nothing). -/
def aggregate_fills (fills : List Trade) : List AggregatedTrade :=
  (group_fills fills).filterMap AggregatedTrade.from_fills

/-- From `main.py` (lines 334-342): the end-of-cycle marker update.  If
the cycle produced at least one aggregated trade, the marker is set to
`aggregated_trades[0]`'s timestamp and transaction hash and written once
(`set_last_processed_trade_marker`); otherwise no write happens and the
marker is left untouched.  The boolean records whether a write was
issued. -/
def cycle_update_marker (marker : Option TradeMarker)
    (aggregated_trades : List AggregatedTrade) : Option TradeMarker × Bool :=
  match aggregated_trades with
  | [] => (marker, false)
  | newest :: _ =>
    (some { last_processed_timestamp := newest.timestamp,
            last_processed_tx_hash := some newest.transaction_hash }, true)

/-- The marker state after one poll cycle over the given new
(post-deduplication) fills. -/
def cycle_marker_after (marker : Option TradeMarker) (new_fills : List Trade) :
    Option TradeMarker × Bool :=
  cycle_update_marker marker (aggregate_fills new_fills)

/-! ### Notification dispatcher (`notification_queue.py`)

`NotificationQueue._send_message` posts to the Telegram API in a
`while retry_count < max_retries` loop with `max_retries = 3`:

* 429 — sleep `retry_after`, `retry_count += 1`, retry the same message;
* 403 / 400 — call `_deactivate_chat(chat_id)` and return `False`
  (no retry);
* timeout — `retry_count += 1`, retry while budget remains, else return
  `False`;
* any other non-2xx / request error — return `False`.

`_deactivate_chat` runs `db.collection('telegramAccounts')`.  pymongo's
`Database` has no `collection` method: attribute access falls through
`Database.__getattr__` and yields a `Collection` named `"collection"`, and
calling a `Collection` raises `TypeError` — before `update_one` runs.  The
surrounding `except Exception` swallows the error and only logs, so the
deactivation write is never issued.  We model the raising call
explicitly. -/

/-- An exception-or-value result of a Python call. -/
inductive PyResult (α : Type) where
  | ok (val : α)
  | exc (msg : String)
deriving DecidableEq, Repr

/-- A Telegram account record in the `telegramAccounts` collection. -/
structure TelegramAccount where
  chatId : String
  isActive : Bool
deriving DecidableEq, Repr

/-- `db.collection(<name>)` on a pymongo `Database`: `__getattr__` returns
a `Collection` named `"collection"`, whose `__call__` raises `TypeError`.
The call never yields a usable collection handle. -/
def databaseCollectionAttrCall (name : String) : PyResult Unit :=
  PyResult.exc ("TypeError: Collection object is not callable (tried " ++ name ++ ")")

/-- From `notification_queue.py` — `NotificationQueue._deactivate_chat`:
`db.collection('telegramAccounts')` then
`update_one({chatId}, {$set: {isActive: False}})`, all inside
`try/except Exception`.  Returns the accounts state and the number of
deactivation writes issued.  Because the collection call raises, the
`except` branch is always taken: state unchanged, zero writes.  (The `ok`
branch records what the write would do were the call valid.) -/
def deactivate_chat (accounts : List TelegramAccount) (chat_id : String) :
    List TelegramAccount × ℕ :=
  match databaseCollectionAttrCall "telegramAccounts" with
  | PyResult.exc _ => (accounts, 0)
  | PyResult.ok _ =>
    (accounts.map (fun a =>
      if a.chatId = chat_id then { a with isActive := false } else a), 1)

/-- Outcome classes of one HTTP post to the Telegram `sendMessage`
endpoint, as distinguished by `_send_message`. -/
inductive TelegramResponse where
  | ok
  | rateLimited (retry_after : ℕ)
  | forbidden
  | badRequest
  | timeout
  | otherStatus (code : ℕ)
deriving DecidableEq, Repr

/-- Result of one `_send_message` call: whether it reported success, how
many HTTP posts it made, the resulting `telegramAccounts` state, and how
many deactivation writes it issued. -/
structure SendResult where
  sent : Bool
  http_posts : ℕ
  accounts : List TelegramAccount
  deactivation_writes : ℕ
deriving DecidableEq, Repr

/-- The `while retry_count < max_retries` loop of `_send_message`.
`respond n` is the outcome of the `n`-th HTTP post; `budget` is
`max_retries - retry_count` and `posts` the posts made so far. -/
def send_message_go (respond : ℕ → TelegramResponse)
    (chat_id : String) (accounts : List TelegramAccount)
    (attempt posts : ℕ) : (budget : ℕ) → SendResult
  | 0 => ⟨false, posts, accounts, 0⟩
  | budget + 1 =>
    match respond attempt with
    | TelegramResponse.ok => ⟨true, posts + 1, accounts, 0⟩
    | TelegramResponse.rateLimited _ =>
      send_message_go respond chat_id accounts (attempt + 1) (posts + 1) budget
    | TelegramResponse.forbidden =>
      let r := deactivate_chat accounts chat_id
      ⟨false, posts + 1, r.1, r.2⟩
    | TelegramResponse.badRequest =>
      let r := deactivate_chat accounts chat_id
      ⟨false, posts + 1, r.1, r.2⟩
    | TelegramResponse.timeout =>
      send_message_go respond chat_id accounts (attempt + 1) (posts + 1) budget
    | TelegramResponse.otherStatus _ => ⟨false, posts + 1, accounts, 0⟩

/-- From `notification_queue.py` — `NotificationQueue._send_message` with
its `max_retries = 3`. -/
def send_message (respond : ℕ → TelegramResponse) (chat_id : String)
    (accounts : List TelegramAccount) : SendResult :=
  send_message_go respond chat_id accounts 0 0 3

/-! ### Concrete inputs used by witnesses and counterexamples -/

/-- Fill (size 10, price 0.40) of the spec §8 aggregation example. -/
def exampleFillA : Trade :=
  { transaction_hash := "0xabc", proxy_wallet := "0x1", side := "BUY",
    size := 10, price := 2/5, condition_id := some "cond1",
    outcome := some "Yes", timestamp := 1000 }

/-- Fill (size 5, price 0.50) of the spec §8 aggregation example. -/
def exampleFillB : Trade :=
  { transaction_hash := "0xabc", proxy_wallet := "0x1", side := "BUY",
    size := 5, price := 1/2, condition_id := some "cond1",
    outcome := some "Yes", timestamp := 1001 }

/-- A market whose derived category list is empty. -/
def noCategoryMarket : MarketMetadata :=
  { condition_id := "cond1", title := "Example market", categories := [] }

/-- A filter whose (non-empty) category allow-list is `["Politics"]` and
whose other gates pass any sizeable BUY trade. -/
def politicsOnlyFilter : UserFilter :=
  { user_id := "user1", min_notional_usd := 0, min_price := 0, max_price := 1,
    sides := ["BUY"], selected_categories := ["Politics"] }

/-- A BUY whale trade used against `noCategoryMarket`. -/
def buyAggTrade : AggregatedTrade :=
  { transaction_hash := "0xabc", proxy_wallet := "0x1", side := "BUY",
    condition_id := some "cond1", outcome := some "Yes", total_size := 100,
    total_notional_usd := 50, vwap_price := 1, timestamp := 1000,
    fill_count := 1 }

/-- A resurfaced fill older than a stored marker (deduplication records
expire after their TTL, so an old fill can reappear as "new"). -/
def staleFill : Trade :=
  { transaction_hash := "0xold", proxy_wallet := "0x2", side := "SELL",
    size := 1, price := 1, condition_id := some "c9", outcome := some "No",
    timestamp := 900 }

/-- A fresh fill, newer than any stored marker in the witnesses. -/
def freshFill : Trade :=
  { transaction_hash := "0xnew", proxy_wallet := "0x3", side := "BUY",
    size := 2, price := 1, condition_id := some "c2", outcome := some "Yes",
    timestamp := 2000 }

/-- Hygiene condition under which an optional string field is rendered
injectively by `pyStrOrNone`: either absent, or a non-empty string other
than the literal `"None"` containing no `':'`. -/
def keyCleanOpt : Option String → Bool
  | none => true
  | some s => !(s == "") && !(s == "None") && s.data.all (fun c => !(c == ':'))

/-- A fill with no outcome label. -/
def dupFillA : Trade :=
  { transaction_hash := "0xdup", proxy_wallet := "0x9", side := "BUY",
    size := 3, price := 1, condition_id := some "c3", outcome := none,
    timestamp := 5 }

/-- A fill identical to `dupFillA` except its outcome is the literal
string `"None"`. -/
def dupFillB : Trade :=
  { transaction_hash := "0xdup", proxy_wallet := "0x9", side := "BUY",
    size := 3, price := 1, condition_id := some "c3", outcome := some "None",
    timestamp := 5 }

/-- A single positive-size fill for the singleton-aggregation agreement
witness. -/
def wFill : Trade :=
  { transaction_hash := "0xw", proxy_wallet := "0x7", side := "BUY",
    size := 2, price := 1, condition_id := some "c7", outcome := some "Yes",
    timestamp := 100 }

/-- The aggregate of `[wFill]`. -/
def wAgg : AggregatedTrade :=
  { transaction_hash := "0xw", proxy_wallet := "0x7", side := "BUY",
    condition_id := some "c7", outcome := some "Yes", total_size := 2,
    total_notional_usd := 2, vwap_price := 1, timestamp := 100,
    fill_count := 1 }

end WhaleWorker

namespace WhaleWorker

/-! ## Helper lemmas -/

/-- Unfolding `AggregatedTrade.from_fills` on a non-empty list. -/
theorem from_fills_cons_eq (f : Trade) (rest : List Trade) :
    AggregatedTrade.from_fills (f :: rest) = some {
      transaction_hash := f.transaction_hash
      proxy_wallet := f.proxy_wallet
      condition_id := f.condition_id
      outcome := f.outcome
      side := f.side
      total_size := ((f :: rest).map Trade.size).sum
      total_notional_usd := ((f :: rest).map Trade.notional).sum
      vwap_price := if 0 < ((f :: rest).map Trade.size).sum
        then ((f :: rest).map Trade.notional).sum / ((f :: rest).map Trade.size).sum
        else 0
      timestamp := ((f :: rest).map Trade.timestamp).foldr max 0
      fill_count := (f :: rest).length } := rfl

theorem le_foldr_max (l : List ℕ) : ∀ x ∈ l, x ≤ l.foldr max 0 := by
  induction l with
  | nil => intro x hx; cases hx
  | cons a l ih =>
    intro x hx
    rcases List.mem_cons.1 hx with rfl | hx
    · exact le_max_left _ _
    · exact (ih x hx).trans (le_max_right _ _)

theorem foldr_max_le {b : ℕ} (l : List ℕ) (h : ∀ x ∈ l, x ≤ b) :
    l.foldr max 0 ≤ b := by
  induction l with
  | nil => exact Nat.zero_le b
  | cons a l ih =>
    exact max_le (h a (List.mem_cons_self a l))
      (ih fun x hx => h x (List.mem_cons_of_mem a hx))

theorem foldr_max_mem : ∀ (a : ℕ) (l : List ℕ), (a :: l).foldr max 0 ∈ a :: l := by
  intro a l
  induction l generalizing a with
  | nil => simp [List.foldr]
  | cons b l ih =>
    change max a ((b :: l).foldr max 0) ∈ _
    rcases max_choice a ((b :: l).foldr max 0) with h | h
    · rw [h]; exact List.mem_cons_self _ _
    · rw [h]; exact List.mem_cons_of_mem a (ih b)

/-! ## Claims -/

/-- C3: for every non-empty list of fills, `AggregatedTrade.from_fills`
(applied to fills whose sizes sum to a positive total, as holds for all
fills admitted by `fetch_recent_trades`, which drops `size <= 0`) returns
an aggregate whose `total_size` is the sum of the fills' sizes,
`total_notional_usd` the sum of the per-fill `size * price` notionals
(exact sums), `vwap_price` the quotient `total_notional / total_size`,
`timestamp` the maximum fill timestamp, and `fill_count` the number of
fills. -/
theorem from_fills_aggregates (f : Trade) (rest : List Trade)
    (hpos : 0 < ((f :: rest).map Trade.size).sum) :
    ∃ a, AggregatedTrade.from_fills (f :: rest) = some a ∧
      a.total_size = ((f :: rest).map Trade.size).sum ∧
      a.total_notional_usd = ((f :: rest).map (fun t => t.size * t.price)).sum ∧
      a.vwap_price = a.total_notional_usd / a.total_size ∧
      (∀ t ∈ f :: rest, t.timestamp ≤ a.timestamp) ∧
      a.timestamp ∈ (f :: rest).map Trade.timestamp ∧
      a.fill_count = (f :: rest).length := by
  refine ⟨_, from_fills_cons_eq f rest, rfl, rfl, ?_, ?_, ?_, rfl⟩
  · show (if 0 < ((f :: rest).map Trade.size).sum
        then ((f :: rest).map Trade.notional).sum / ((f :: rest).map Trade.size).sum
        else 0) = _
    rw [if_pos hpos]
  · intro t ht
    exact le_foldr_max _ _ (List.mem_map_of_mem Trade.timestamp ht)
  · exact foldr_max_mem f.timestamp (rest.map Trade.timestamp)

/-- Witness for C3 at the spec §8 example fills: totals 15 and 6.5, VWAP
13/30 (≈ 0.4333), two fills. -/
theorem from_fills_aggregates_witness :
    ∃ a, AggregatedTrade.from_fills [exampleFillA, exampleFillB] = some a ∧
      a.total_size = 15 ∧ a.total_notional_usd = 13/2 ∧
      a.vwap_price = 13/30 ∧ a.fill_count = 2 := by
  obtain ⟨a, ha, h1, h2, h3, -, -, h4⟩ :=
    from_fills_aggregates exampleFillA [exampleFillB]
      (by norm_num [exampleFillA, exampleFillB])
  refine ⟨a, ha, ?_, ?_, ?_, ?_⟩
  · rw [h1]; norm_num [exampleFillA, exampleFillB]
  · rw [h2]; norm_num [exampleFillA, exampleFillB]
  · rw [h3, h2, h1]; norm_num [exampleFillA, exampleFillB]
  · rw [h4]; rfl

/-- C7: `AggregatedTrade.from_fills` fails (raises `ValueError`, embedded
as `none`) on the empty fill list, and succeeds on every non-empty list. -/
theorem from_fills_empty_fails_nonempty_succeeds :
    AggregatedTrade.from_fills [] = none ∧
      ∀ (f : Trade) (rest : List Trade),
        (AggregatedTrade.from_fills (f :: rest)).isSome = true :=
  ⟨rfl, fun _ _ => rfl⟩

/-- C8: aggregating a single fill of positive size yields `fill_count = 1`
and `vwap_price` exactly the fill's price. -/
theorem from_fills_single_fill (f : Trade) (hpos : 0 < f.size) :
    ∃ a, AggregatedTrade.from_fills [f] = some a ∧
      a.fill_count = 1 ∧ a.vwap_price = f.price := by
  refine ⟨_, from_fills_cons_eq f [], rfl, ?_⟩
  show (if 0 < ([f].map Trade.size).sum
      then ([f].map Trade.notional).sum / ([f].map Trade.size).sum else 0) = f.price
  have hs : ([f].map Trade.size).sum = f.size := by simp
  have hn : ([f].map Trade.notional).sum = f.size * f.price := by
    simp [Trade.notional]
  rw [hs, hn, if_pos hpos, mul_div_cancel_left₀ _ (ne_of_gt hpos)]

/-- Witness for C8 at the first example fill (size 10 > 0, price 0.40). -/
theorem from_fills_single_fill_witness :
    ∃ a, AggregatedTrade.from_fills [exampleFillA] = some a ∧
      a.fill_count = 1 ∧ a.vwap_price = exampleFillA.price :=
  from_fills_single_fill exampleFillA (by decide)

/-- C4: after `mark_trade_as_processed` stores expiry `mark_time + ttl`
for a fill key, `is_trade_processed` (a pure read, so any number of calls
agree) answers true at every check time strictly before the expiry and
false at or after it — and the answer is the same whether the expired
record is still physically present or the TTL index has already reaped
it. -/
theorem dedup_mark_then_check (s : DedupStore) (fill_key : String)
    (mark_time ttl check_time : ℕ) :
    is_trade_processed (mark_trade_as_processed s fill_key mark_time ttl)
        fill_key check_time = decide (check_time < mark_time + ttl) ∧
    is_trade_processed
        (reap_expired (mark_trade_as_processed s fill_key mark_time ttl) check_time)
        fill_key check_time = decide (check_time < mark_time + ttl) := by
  constructor
  · simp [is_trade_processed, mark_trade_as_processed]
  · by_cases h : mark_time + ttl ≤ check_time
    · simp [is_trade_processed, mark_trade_as_processed, reap_expired, h,
        Nat.not_lt.mpr h]
    · simp [is_trade_processed, mark_trade_as_processed, reap_expired, h]

/-- C5 (code evaluation): on a permanent-rejection response (HTTP 403 or
400) `_send_message` makes exactly one HTTP post — the message is not
retried — but issues zero deactivation writes and leaves the accounts
state unchanged, because `_deactivate_chat`'s
`db.collection('telegramAccounts')` raises `TypeError` (pymongo
`Database` has no such method) and the `except Exception` swallows it.
The spec requires exactly one deactivation write. -/
theorem send_message_permanent_rejection (respond : ℕ → TelegramResponse)
    (chat_id : String) (accounts : List TelegramAccount)
    (h : respond 0 = TelegramResponse.forbidden ∨
      respond 0 = TelegramResponse.badRequest) :
    send_message respond chat_id accounts =
      { sent := false, http_posts := 1, accounts := accounts,
        deactivation_writes := 0 } := by
  rcases h with h | h <;>
    simp [send_message, send_message_go, h, deactivate_chat,
      databaseCollectionAttrCall]

/-- Witness for C5: a concrete 403 response for chat `"12345"`. -/
theorem send_message_permanent_rejection_witness :
    send_message (fun _ => TelegramResponse.forbidden) "12345"
        [{ chatId := "12345", isActive := true }] =
      { sent := false, http_posts := 1,
        accounts := [{ chatId := "12345", isActive := true }],
        deactivation_writes := 0 } :=
  send_message_permanent_rejection _ _ _ (Or.inl rfl)

/-- C1 (code evaluation): the aggregated matcher never consults the
filter's category allow-list `selected_categories` (nor the market's
derived `categories`): changing the allow-list never changes the result,
and a concrete trade passes a filter whose allow-list is the non-empty
`["Politics"]` against a market with no categories — which the spec's
allow-list semantics forbids. -/
theorem selected_categories_not_consulted :
    (∀ (agg : AggregatedTrade) (market : MarketMetadata) (f : UserFilter)
        (cats : List String),
      aggregated_trade_matches_user_filter agg market
          { f with selected_categories := cats } =
        aggregated_trade_matches_user_filter agg market f) ∧
    politicsOnlyFilter.selected_categories ≠ [] ∧
    noCategoryMarket.categories = [] ∧
    aggregated_trade_matches_user_filter buyAggTrade noCategoryMarket
      politicsOnlyFilter = true := by
  refine ⟨fun agg market f cats => rfl, by decide, rfl, ?_⟩
  decide

/-- An early-return chain of conjunctive reject-conditions equals the
conjunction of the corresponding pass-conditions, grouped as the six
gates. -/
theorem reject_chain_eq_gate_conj (e n p1 p2 sm x1 x2 x3 x4 : Bool) :
    (if !e then false else if n then false else if !(p1 && p2) then false
      else if !sm then false else if x1 then false else if x2 then false
      else if x3 then false else if x4 then false else true) =
    ([e, !n, p1 && p2, sm, !x1 && !x2 && !x3, !x4].all id) := by
  cases e <;> cases n <;> cases p1 <;> cases p2 <;> cases sm <;>
    cases x1 <;> cases x2 <;> cases x3 <;> cases x4 <;> rfl

/-- The aggregated matcher is definitionally the reject-chain over its
gate conditions, hence equals the conjunction of the six gates. -/
theorem agg_match_eq_all_gates (agg : AggregatedTrade) (market : MarketMetadata)
    (f : UserFilter) :
    aggregated_trade_matches_user_filter agg market f =
      (gate_list agg market f).all id :=
  reject_chain_eq_gate_conj _ _ _ _ _ _ _ _ _

/-- `List.all` over booleans is invariant under permutation. -/
theorem all_id_of_perm : ∀ {l l' : List Bool}, l.Perm l' → l.all id = l'.all id := by
  intro l l' h
  induction h with
  | nil => rfl
  | cons x _ ih => simp [List.all_cons, ih]
  | swap x y l => cases x <;> cases y <;> simp [List.all_cons]
  | trans _ _ ih1 ih2 => exact ih1.trans ih2

/-- C9: the aggregated matcher equals the pure conjunction of its six
gate predicates (enabled, notional threshold, price range, side, category
conditions, instrument allow-list), so evaluating the gates in any order
— any permutation of the gate list — yields the same boolean. -/
theorem aggregated_match_is_pure_conjunction (agg : AggregatedTrade)
    (market : MarketMetadata) (f : UserFilter) :
    (aggregated_trade_matches_user_filter agg market f =
      (gate_list agg market f).all id) ∧
    ∀ l : List Bool, l.Perm (gate_list agg market f) →
      l.all id = aggregated_trade_matches_user_filter agg market f := by
  have h := agg_match_eq_all_gates agg market f
  exact ⟨h, fun l hl => (all_id_of_perm hl).trans h.symm⟩

/-- Witness for C9: evaluating the gates in reversed order on concrete
inputs gives the matcher's result. -/
theorem aggregated_match_is_pure_conjunction_witness :
    (gate_list buyAggTrade noCategoryMarket politicsOnlyFilter).reverse.all id =
      aggregated_trade_matches_user_filter buyAggTrade noCategoryMarket
        politicsOnlyFilter :=
  (aggregated_match_is_pure_conjunction _ _ _).2 _ (List.reverse_perm _)

/-- Every member of a fill group produced by `group_fills` is one of the
input fills. -/
theorem group_fills_mem :
    ∀ (fills : List Trade), ∀ g ∈ group_fills fills, ∀ t ∈ g, t ∈ fills := by
  intro fills
  induction fills using group_fills.induct with
  | case1 =>
    intro g hg
    simp [group_fills] at hg
  | case2 f rest ih =>
    intro g hg t ht
    simp only [group_fills] at hg
    rcases List.mem_cons.1 hg with rfl | hg
    · rcases List.mem_cons.1 ht with rfl | ht
      · exact List.mem_cons_self _ _
      · exact List.mem_cons_of_mem _ (List.mem_of_mem_filter ht)
    · exact List.mem_cons_of_mem _
        (List.mem_of_mem_filter (ih g hg t ht))

/-- `aggregate_fills` on a non-empty fill list: the first aggregated
trade comes from the first fill's group, and the rest from the remaining
fills. -/
theorem aggregate_fills_cons (f : Trade) (rest : List Trade) :
    ∃ a0, AggregatedTrade.from_fills
        (f :: rest.filter (fun t => t.get_aggregation_key = f.get_aggregation_key))
          = some a0 ∧
      aggregate_fills (f :: rest) = a0 ::
        aggregate_fills
          (rest.filter (fun t => t.get_aggregation_key ≠ f.get_aggregation_key)) := by
  refine ⟨_, from_fills_cons_eq _ _, ?_⟩
  unfold aggregate_fills
  simp only [group_fills]
  rw [List.filterMap_cons, from_fills_cons_eq]

/-- The aggregate of a fill group is timestamped no later than any common
upper bound of the group's fills. -/
theorem from_fills_timestamp_le {g : List Trade} {a : AggregatedTrade} {B : ℕ}
    (hg : AggregatedTrade.from_fills g = some a)
    (hB : ∀ t ∈ g, t.timestamp ≤ B) : a.timestamp ≤ B := by
  cases g with
  | nil => cases hg
  | cons f rest =>
    rw [from_fills_cons_eq] at hg
    injection hg with hg
    subst hg
    refine foldr_max_le _ ?_
    intro x hx
    obtain ⟨t, ht, rfl⟩ := List.mem_map.1 hx
    exact hB t ht

/-- The aggregate of a fill group is timestamped no earlier than its
first fill. -/
theorem from_fills_timestamp_ge {f : Trade} {rest : List Trade}
    {a : AggregatedTrade}
    (hg : AggregatedTrade.from_fills (f :: rest) = some a) :
    f.timestamp ≤ a.timestamp := by
  rw [from_fills_cons_eq] at hg
  injection hg with hg
  subst hg
  exact le_foldr_max _ _ (List.mem_map_of_mem Trade.timestamp (List.mem_cons_self f rest))

/-- C2 counterexample: the marker update applies no non-regression guard.
With a stored marker at timestamp 1000, a cycle whose only new fill has
timestamp 900 rewrites the marker to 900 < 1000, so the marker timestamp
is not monotonically non-decreasing across cycles. -/
theorem cycle_marker_can_regress :
    ∃ mk, (cycle_marker_after
        (some { last_processed_timestamp := 1000,
                last_processed_tx_hash := some "0xnew" }) [staleFill]).1 = some mk ∧
      mk.last_processed_timestamp < 1000 := by
  refine ⟨{ last_processed_timestamp := 900,
            last_processed_tx_hash := some "0xold" }, ?_, by norm_num⟩
  simp [cycle_marker_after, aggregate_fills, group_fills, cycle_update_marker,
    from_fills_cons_eq, staleFill]

/-- C2 (amended): within a cycle, the marker is written at most once and
only if at least one aggregated trade was produced — a cycle producing
zero aggregated trades (in particular an empty fill list) leaves the
marker entirely unchanged and writes nothing; a producing cycle writes
once, setting the marker to the first aggregated trade's timestamp and
transaction id, which — fetched fills being sorted newest-first — is the
newest aggregated trade's timestamp.  Across cycles the timestamp is
non-decreasing only under the extra assumption that the cycle's fills are
no older than the stored marker (the code has no guard; see
`cycle_marker_can_regress`). -/
theorem cycle_marker_update_behavior :
    (∀ (marker : Option TradeMarker) (fills : List Trade),
      aggregate_fills fills = [] →
        cycle_marker_after marker fills = (marker, false)) ∧
    (∀ (marker : Option TradeMarker) (f : Trade) (rest : List Trade),
      (f :: rest).Pairwise (fun a b => b.timestamp ≤ a.timestamp) →
      ∃ mk, cycle_marker_after marker (f :: rest) = (some mk, true) ∧
        mk.last_processed_timestamp = f.timestamp ∧
        mk.last_processed_tx_hash = some f.transaction_hash ∧
        (∀ a ∈ aggregate_fills (f :: rest),
          a.timestamp ≤ mk.last_processed_timestamp) ∧
        ∀ m0, marker = some m0 →
          m0.last_processed_timestamp ≤ f.timestamp →
          m0.last_processed_timestamp ≤ mk.last_processed_timestamp) := by
  constructor
  · intro marker fills h
    unfold cycle_marker_after
    rw [h]
    rfl
  · intro marker f rest hsorted
    obtain ⟨a0, ha0, hagg⟩ := aggregate_fills_cons f rest
    have hrest : ∀ t ∈ rest, t.timestamp ≤ f.timestamp :=
      (List.pairwise_cons.1 hsorted).1
    have hgroup : ∀ t ∈ f ::
        rest.filter (fun t => t.get_aggregation_key = f.get_aggregation_key),
        t.timestamp ≤ f.timestamp := by
      intro t ht
      rcases List.mem_cons.1 ht with rfl | ht
      · exact le_rfl
      · exact hrest t (List.mem_of_mem_filter ht)
    have hts : a0.timestamp = f.timestamp :=
      le_antisymm (from_fills_timestamp_le ha0 hgroup) (from_fills_timestamp_ge ha0)
    have htx : a0.transaction_hash = f.transaction_hash := by
      rw [from_fills_cons_eq] at ha0
      injection ha0 with ha0
      rw [← ha0]
    refine ⟨{ last_processed_timestamp := a0.timestamp,
              last_processed_tx_hash := some a0.transaction_hash },
      ?_, hts, by rw [htx], ?_, ?_⟩
    · unfold cycle_marker_after
      rw [hagg]
      rfl
    · intro a ha
      rw [hagg] at ha
      rcases List.mem_cons.1 ha with rfl | ha
      · exact le_rfl
      · obtain ⟨g, hg, hfa⟩ := List.mem_filterMap.1 ha
        rw [hts]
        refine from_fills_timestamp_le hfa ?_
        intro t ht
        exact hrest t (List.mem_of_mem_filter (group_fills_mem _ g hg t ht))
    · intro m0 hm0 hle
      rw [hts]
      exact hle

/-- Witness for C2: an empty cycle leaves a concrete marker untouched,
and a one-fill sorted cycle writes once, stamping the fill's timestamp
and hash. -/
theorem cycle_marker_update_behavior_witness :
    (cycle_marker_after (some { last_processed_timestamp := 500,
                                last_processed_tx_hash := some "0xw" }) [] =
      (some { last_processed_timestamp := 500,
              last_processed_tx_hash := some "0xw" }, false)) ∧
    ∃ mk, cycle_marker_after (some { last_processed_timestamp := 500,
                                     last_processed_tx_hash := some "0xw" })
        [freshFill] = (some mk, true) ∧
      mk.last_processed_timestamp = freshFill.timestamp ∧
      mk.last_processed_tx_hash = some freshFill.transaction_hash ∧
      (∀ a ∈ aggregate_fills [freshFill],
        a.timestamp ≤ mk.last_processed_timestamp) ∧
      ∀ m0, (some { last_processed_timestamp := 500,
                    last_processed_tx_hash := some "0xw" } : Option TradeMarker) =
          some m0 →
        m0.last_processed_timestamp ≤ freshFill.timestamp →
        m0.last_processed_timestamp ≤ mk.last_processed_timestamp :=
  ⟨cycle_marker_update_behavior.1 _ _ (by simp [aggregate_fills, group_fills]),
   cycle_marker_update_behavior.2 _ freshFill [] (by simp)⟩

/-- `digitChar` never yields a separator or sign character. -/
theorem digitChar_ne_symbols :
    ∀ d : ℕ, digitChar d ≠ ':' ∧ digitChar d ≠ '-' ∧ digitChar d ≠ '/' := by
  intro d
  match d with
  | 0 | 1 | 2 | 3 | 4 | 5 | 6 | 7 | 8 | 9 => exact ⟨by decide, by decide, by decide⟩
  | n + 10 =>
    exact ⟨by show ('*' : Char) ≠ ':'; decide, by show ('*' : Char) ≠ '-'; decide,
      by show ('*' : Char) ≠ '/'; decide⟩

/-- `digitChar` is injective on decimal digits. -/
theorem digitChar_inj :
    ∀ a, a < 10 → ∀ b, b < 10 → digitChar a = digitChar b → a = b := by decide

/-- Every character of `natChars` is the image of a decimal digit. -/
theorem mem_natChars {c : Char} {n : ℕ} (h : c ∈ natChars n) :
    ∃ d, d < 10 ∧ digitChar d = c := by
  unfold natChars at h
  rw [List.mem_reverse] at h
  obtain ⟨d, hd, rfl⟩ := List.mem_map.1 h
  exact ⟨d, Nat.digits_lt_base (by norm_num) hd, rfl⟩

theorem colon_not_mem_natChars (n : ℕ) : ':' ∉ natChars n := by
  intro h
  obtain ⟨d, -, hdc⟩ := mem_natChars h
  exact (digitChar_ne_symbols d).1 hdc

theorem dash_not_mem_natChars (n : ℕ) : '-' ∉ natChars n := by
  intro h
  obtain ⟨d, -, hdc⟩ := mem_natChars h
  exact (digitChar_ne_symbols d).2.1 hdc

theorem slash_not_mem_natChars (n : ℕ) : '/' ∉ natChars n := by
  intro h
  obtain ⟨d, -, hdc⟩ := mem_natChars h
  exact (digitChar_ne_symbols d).2.2 hdc

/-- Mapping digits (all below the base) through `digitChar` is injective. -/
theorem map_digitChar_inj :
    ∀ (l1 l2 : List ℕ), (∀ x ∈ l1, x < 10) → (∀ x ∈ l2, x < 10) →
      l1.map digitChar = l2.map digitChar → l1 = l2 := by
  intro l1
  induction l1 with
  | nil =>
    intro l2 _ _ h
    cases l2 with
    | nil => rfl
    | cons b l2 => simp at h
  | cons a l ih =>
    intro l2 h1 h2 h
    cases l2 with
    | nil => simp at h
    | cons b l2 =>
      simp only [List.map_cons, List.cons.injEq] at h
      obtain ⟨hab, htl⟩ := h
      have hab2 : a = b := digitChar_inj a (h1 a (List.mem_cons_self _ _)) b
        (h2 b (List.mem_cons_self _ _)) hab
      subst hab2
      rw [ih l2 (fun x hx => h1 x (List.mem_cons_of_mem _ hx))
        (fun x hx => h2 x (List.mem_cons_of_mem _ hx)) htl]

theorem natChars_inj {m n : ℕ} (h : natChars m = natChars n) : m = n := by
  unfold natChars at h
  have hmap := List.reverse_injective h
  have hd : Nat.digits 10 m = Nat.digits 10 n :=
    map_digitChar_inj _ _
      (fun x hx => Nat.digits_lt_base (by norm_num) hx)
      (fun x hx => Nat.digits_lt_base (by norm_num) hx) hmap
  calc m = Nat.ofDigits 10 (Nat.digits 10 m) := (Nat.ofDigits_digits 10 m).symm
    _ = Nat.ofDigits 10 (Nat.digits 10 n) := by rw [hd]
    _ = n := Nat.ofDigits_digits 10 n

theorem colon_not_mem_intChars (i : ℤ) : ':' ∉ intChars i := by
  intro h
  unfold intChars at h
  by_cases hi : i < 0
  · rw [if_pos hi] at h
    rcases List.mem_cons.1 h with hc | h
    · exact absurd hc (by decide)
    · exact colon_not_mem_natChars _ h
  · rw [if_neg hi] at h
    exact colon_not_mem_natChars _ h

theorem slash_not_mem_intChars (i : ℤ) : '/' ∉ intChars i := by
  intro h
  unfold intChars at h
  by_cases hi : i < 0
  · rw [if_pos hi] at h
    rcases List.mem_cons.1 h with hc | h
    · exact absurd hc (by decide)
    · exact slash_not_mem_natChars _ h
  · rw [if_neg hi] at h
    exact slash_not_mem_natChars _ h

theorem intChars_inj : ∀ {i j : ℤ}, intChars i = intChars j → i = j := by
  intro i j h
  unfold intChars at h
  by_cases hi : i < 0 <;> by_cases hj : j < 0
  · rw [if_pos hi, if_pos hj] at h
    simp only [List.cons.injEq] at h
    have := natChars_inj h.2
    omega
  · rw [if_pos hi, if_neg hj] at h
    exact absurd (h ▸ List.mem_cons_self '-' (natChars i.natAbs))
      (dash_not_mem_natChars _)
  · rw [if_neg hi, if_pos hj] at h
    exact absurd (h ▸ List.mem_cons_self '-' (natChars j.natAbs))
      (dash_not_mem_natChars _)
  · rw [if_neg hi, if_neg hj] at h
    have := natChars_inj h
    omega

/-- Splitting a separator-joined pair of character lists is unambiguous
when neither left part contains the separator. -/
theorem append_sep_inj {sep : Char} :
    ∀ {a : List Char} {a2 b b2 : List Char}, sep ∉ a → sep ∉ a2 →
      a ++ sep :: b = a2 ++ sep :: b2 → a = a2 ∧ b = b2 := by
  intro a
  induction a with
  | nil =>
    intro a2 b b2 _ ha2 h
    cases a2 with
    | nil => simpa using h
    | cons x xs =>
      simp only [List.nil_append, List.cons_append, List.cons.injEq] at h
      have : sep ∈ x :: xs := by
        rw [h.1]
        exact List.mem_cons_self x xs
      exact absurd this ha2
  | cons y ys ih =>
    intro a2 b b2 ha ha2 h
    cases a2 with
    | nil =>
      simp only [List.cons_append, List.nil_append, List.cons.injEq] at h
      have : sep ∈ y :: ys := by
        rw [h.1]
        exact List.mem_cons_self sep ys
      exact absurd this ha
    | cons z zs =>
      simp only [List.cons_append, List.cons.injEq] at h
      obtain ⟨rfl, h2⟩ := h
      have hnys : sep ∉ ys := fun hm => ha (List.mem_cons_of_mem _ hm)
      have hnzs : sep ∉ zs := fun hm => ha2 (List.mem_cons_of_mem _ hm)
      obtain ⟨h3, h4⟩ := ih hnys hnzs h2
      exact ⟨by rw [h3], h4⟩

theorem colon_not_mem_ratChars (q : ℚ) : ':' ∉ ratChars q := by
  intro h
  unfold ratChars at h
  rcases List.mem_append.1 h with h | h
  · exact colon_not_mem_intChars _ h
  · rcases List.mem_cons.1 h with hc | h
    · exact absurd hc (by decide)
    · exact colon_not_mem_natChars _ h

theorem ratChars_inj {q r : ℚ} (h : ratChars q = ratChars r) : q = r := by
  unfold ratChars at h
  obtain ⟨h1, h2⟩ :=
    append_sep_inj (slash_not_mem_intChars q.num) (slash_not_mem_intChars r.num) h
  exact Rat.ext (intChars_inj h1) (natChars_inj h2)

theorem string_data_inj {s t : String} (h : s.data = t.data) : s = t := by
  cases s with
  | mk d1 =>
    cases t with
    | mk d2 => exact congrArg String.mk h

/-- A hygienic optional field renders colon-free under `pyStrOrNone`. -/
theorem keyCleanOpt_colon {o : Option String} (h : keyCleanOpt o = true) :
    ':' ∉ (pyStrOrNone o).data := by
  cases o with
  | none => decide
  | some s =>
    simp only [keyCleanOpt, Bool.and_eq_true, Bool.not_eq_true', beq_eq_false_iff_ne,
      List.all_eq_true] at h
    obtain ⟨⟨h1, -⟩, h3⟩ := h
    simp only [pyStrOrNone]
    rw [if_neg (by simpa using h1)]
    intro hc
    have := h3 ':' hc
    simp at this

/-- `pyStrOrNone` is injective on hygienic optional fields. -/
theorem pyStrOrNone_inj {o1 o2 : Option String} (h1 : keyCleanOpt o1 = true)
    (h2 : keyCleanOpt o2 = true) (h : pyStrOrNone o1 = pyStrOrNone o2) :
    o1 = o2 := by
  cases o1 with
  | none =>
    cases o2 with
    | none => rfl
    | some s =>
      simp only [keyCleanOpt, Bool.and_eq_true, Bool.not_eq_true',
        beq_eq_false_iff_ne] at h2
      obtain ⟨⟨hne, hnone⟩, -⟩ := h2
      simp only [pyStrOrNone] at h
      rw [if_neg (by simpa using hne)] at h
      exact absurd h.symm hnone
  | some s =>
    cases o2 with
    | none =>
      simp only [keyCleanOpt, Bool.and_eq_true, Bool.not_eq_true',
        beq_eq_false_iff_ne] at h1
      obtain ⟨⟨hne, hnone⟩, -⟩ := h1
      simp only [pyStrOrNone] at h
      rw [if_neg (by simpa using hne)] at h
      exact absurd h hnone
    | some s2 =>
      simp only [keyCleanOpt, Bool.and_eq_true, Bool.not_eq_true',
        beq_eq_false_iff_ne] at h1 h2
      simp only [pyStrOrNone] at h
      rw [if_neg (by simpa using h1.1.1), if_neg (by simpa using h2.1.1)] at h
      exact congrArg some h

/-- C6 counterexample: two fills that differ in their outcome field —
`None` versus the literal string `"None"` — produce the same fill key,
because `get_fill_key` renders a falsy outcome as the string `"None"`. -/
theorem get_fill_key_collision :
    dupFillA.outcome ≠ dupFillB.outcome ∧ dupFillA ≠ dupFillB ∧
      dupFillA.get_fill_key = dupFillB.get_fill_key := by
  refine ⟨by decide, by decide, rfl⟩

/-- C6 (amended): `get_fill_key` is deterministic (it is a function of
the seven key fields), and equal keys force equal transaction id, wallet,
instrument, outcome, side, size and price, provided the string fields
contain no `':'` and the optional fields are hygienic (absent, or
non-empty, not the literal `"None"`, colon-free) — without these
provisos the key collides (`get_fill_key_collision`). -/
theorem get_fill_key_determines_fields (t1 t2 : Trade)
    (htx1 : ':' ∉ t1.transaction_hash.data) (htx2 : ':' ∉ t2.transaction_hash.data)
    (hw1 : ':' ∉ t1.proxy_wallet.data) (hw2 : ':' ∉ t2.proxy_wallet.data)
    (hs1 : ':' ∉ t1.side.data) (hs2 : ':' ∉ t2.side.data)
    (hc1 : keyCleanOpt t1.condition_id = true) (hc2 : keyCleanOpt t2.condition_id = true)
    (ho1 : keyCleanOpt t1.outcome = true) (ho2 : keyCleanOpt t2.outcome = true)
    (hk : t1.get_fill_key = t2.get_fill_key) :
    t1.transaction_hash = t2.transaction_hash ∧
    t1.proxy_wallet = t2.proxy_wallet ∧
    t1.condition_id = t2.condition_id ∧
    t1.outcome = t2.outcome ∧
    t1.side = t2.side ∧
    t1.size = t2.size ∧
    t1.price = t2.price := by
  unfold Trade.get_fill_key at hk
  obtain ⟨e1, hk⟩ := append_sep_inj htx1 htx2 hk
  obtain ⟨e2, hk⟩ := append_sep_inj hw1 hw2 hk
  obtain ⟨e3, hk⟩ := append_sep_inj (keyCleanOpt_colon hc1) (keyCleanOpt_colon hc2) hk
  obtain ⟨e4, hk⟩ := append_sep_inj (keyCleanOpt_colon ho1) (keyCleanOpt_colon ho2) hk
  obtain ⟨e5, hk⟩ := append_sep_inj hs1 hs2 hk
  obtain ⟨e6, e7⟩ :=
    append_sep_inj (colon_not_mem_ratChars _) (colon_not_mem_ratChars _) hk
  exact ⟨string_data_inj e1, string_data_inj e2,
    pyStrOrNone_inj hc1 hc2 (string_data_inj e3),
    pyStrOrNone_inj ho1 ho2 (string_data_inj e4),
    string_data_inj e5, ratChars_inj e6, ratChars_inj e7⟩

/-- Witness for C6 at a concrete hygienic fill. -/
theorem get_fill_key_determines_fields_witness :
    freshFill.transaction_hash = freshFill.transaction_hash ∧
    freshFill.proxy_wallet = freshFill.proxy_wallet ∧
    freshFill.condition_id = freshFill.condition_id ∧
    freshFill.outcome = freshFill.outcome ∧
    freshFill.side = freshFill.side ∧
    freshFill.size = freshFill.size ∧
    freshFill.price = freshFill.price :=
  get_fill_key_determines_fields freshFill freshFill
    (by decide) (by decide) (by decide) (by decide) (by decide) (by decide)
    (by decide) (by decide) (by decide) (by decide) rfl

/-- C10: for a fill of positive size, matching it with the single-trade
predicate agrees with aggregating the one-element fill list and matching
the resulting aggregate with the aggregated-trade predicate: the two
matchers coincide on singleton inputs. -/
theorem single_fill_match_agrees (f : Trade) (market : MarketMetadata)
    (uf : UserFilter) (hpos : 0 < f.size) (a : AggregatedTrade)
    (ha : AggregatedTrade.from_fills [f] = some a) :
    aggregated_trade_matches_user_filter a market uf =
      trade_matches_user_filter f market uf := by
  rw [from_fills_cons_eq] at ha
  injection ha with ha
  subst ha
  have hn : ([f].map Trade.notional).sum = f.notional := by simp
  have hv : (if 0 < ([f].map Trade.size).sum
      then ([f].map Trade.notional).sum / ([f].map Trade.size).sum else 0)
      = f.price := by
    have hs : ([f].map Trade.size).sum = f.size := by simp
    rw [hs, hn, if_pos hpos, Trade.notional, mul_div_cancel_left₀ _ (ne_of_gt hpos)]
  unfold aggregated_trade_matches_user_filter trade_matches_user_filter
  dsimp only
  rw [hv, hn]

/-- Witness for C10 at a concrete fill, market and filter. -/
theorem single_fill_match_agrees_witness :
    aggregated_trade_matches_user_filter wAgg noCategoryMarket politicsOnlyFilter =
      trade_matches_user_filter wFill noCategoryMarket politicsOnlyFilter :=
  single_fill_match_agrees wFill noCategoryMarket politicsOnlyFilter (by decide) wAgg
    (by norm_num [from_fills_cons_eq, wFill, wAgg, Trade.notional])

end WhaleWorker
